import Mathlib

/-!
Verification of the `bevy_ecs_benchmark` convergence engine, metrics and
results pipeline.  The Rust sources are shallowly embedded: `usize` becomes
`ℕ` (with the places where the source could under/overflow treated
explicitly), `f64` arithmetic is modelled exactly over `ℚ` (casts `as usize`
become floors), and the Bevy systems become pure state-transition functions.
-/

namespace BevyBench

/-! ### Constants from `src/config.rs` -/

/-- Target frame time in milliseconds (16.6ms = 60 FPS). -/
def TARGET_FRAME_TIME_MS : ℚ := 16666 / 1000

/-- Number of warm-up frames to skip before measuring. -/
def WARMUP_FRAMES : ℕ := 60

/-- Number of frames to sample for each measurement. -/
def SAMPLE_FRAMES : ℕ := 120

/-- Initial entity count when starting a benchmark. -/
def INITIAL_ENTITY_COUNT : ℕ := 10000

/-- Minimum entity count for binary search. -/
def MIN_ENTITY_COUNT : ℕ := 100

/-- `usize::MAX` on a 64-bit platform. -/
def USIZE_MAX : ℕ := 2 ^ 64 - 1

/-- Maximum entity count to test (`usize::MAX / 2`). -/
def MAX_ENTITY_COUNT : ℕ := USIZE_MAX / 2

/-- Multiplier for exponential growth phase. -/
def GROWTH_MULTIPLIER : ℚ := 2

/-- Manual adjustment step size. -/
def MANUAL_STEP_SIZE : ℕ := 1000

/-- Large manual adjustment step (with shift held). -/
def MANUAL_STEP_SIZE_LARGE : ℕ := 10000

/-- Minimum gap for binary search convergence. -/
def MIN_CONVERGENCE_GAP : ℕ := 100

/-! ### `src/metrics/frame_metrics.rs` -/

/-- Statistics from a sample collection period (`SampleStats`).
`std_dev_sq` carries the population variance, i.e. the square of the
source's `std_dev` field: the source stores `variance.sqrt()`, whose exact
value is irrational in general and is determined by its square. -/
structure SampleStats where
  min : ℚ
  max : ℚ
  median : ℚ
  mean : ℚ
  std_dev_sq : ℚ
  p95 : ℚ
  p99 : ℚ
  count : ℕ
  deriving Repr, DecidableEq

/-- `SampleStats::default()`: every field zero. -/
def SampleStats.default : SampleStats :=
  ⟨0, 0, 0, 0, 0, 0, 0, 0⟩

/-- `SampleStats::median_exceeds`. -/
def SampleStats.median_exceeds (s : SampleStats) (target_ms : ℚ) : Bool :=
  decide (s.median > target_ms)

/-- `FrameMetrics::sample_stats`, on the list of collected samples
(milliseconds).  The source sorts a copy, reads the extremes from the ends
of the sorted vector, averages the two central entries for an even count,
divides the squared deviations by `N` for the variance, and indexes the
sorted vector at `floor(N * 0.95)` / `floor(N * 0.99)` clamped to the last
valid index. -/
def sample_stats (samples : List ℚ) : SampleStats :=
  if samples.isEmpty then SampleStats.default
  else
    let sorted := List.insertionSort (· ≤ ·) samples
    let n := sorted.length
    let min' := sorted.headD 0
    let max' := sorted.getLastD 0
    let median :=
      if n % 2 = 0 then (sorted.getD (n / 2 - 1) 0 + sorted.getD (n / 2) 0) / 2
      else sorted.getD (n / 2) 0
    let mean := samples.sum / (samples.length : ℚ)
    let variance := ((samples.map (fun x => (x - mean) ^ 2)).sum) / (samples.length : ℚ)
    let p95_idx := (⌊(n : ℚ) * (95 / 100)⌋).toNat
    let p99_idx := (⌊(n : ℚ) * (99 / 100)⌋).toNat
    let p95 := sorted.getD (min p95_idx (n - 1)) 0
    let p99 := sorted.getD (min p99_idx (n - 1)) 0
    ⟨min', max', median, mean, variance, p95, p99, samples.length⟩

/-! ### `src/state.rs` -/

/-- Benchmark execution phase. -/
inductive BenchmarkPhase where
  | Idle
  | WarmUp
  | Sampling
  | Adjusting
  | Complete
  deriving Repr, DecidableEq

/-- Resource tracking the current benchmark configuration. -/
structure BenchmarkState where
  entity_count : ℕ
  search_low : ℕ
  search_high : ℕ
  frame_counter : ℕ
  automated : Bool
  suite_index : ℕ
  deriving Repr, DecidableEq

/-- `BenchmarkState::default()`. -/
def BenchmarkState.default : BenchmarkState :=
  { entity_count := INITIAL_ENTITY_COUNT
    search_low := MIN_ENTITY_COUNT
    search_high := MAX_ENTITY_COUNT
    frame_counter := 0
    automated := false
    suite_index := 0 }

/-- `BenchmarkState::reset`. -/
def BenchmarkState.reset (st : BenchmarkState) : BenchmarkState :=
  { st with
    entity_count := INITIAL_ENTITY_COUNT
    search_low := MIN_ENTITY_COUNT
    search_high := MAX_ENTITY_COUNT
    frame_counter := 0 }

/-- `BenchmarkState::reset_for_new_workload` (same fields as `reset`). -/
def BenchmarkState.reset_for_new_workload (st : BenchmarkState) : BenchmarkState :=
  { st with
    entity_count := INITIAL_ENTITY_COUNT
    search_low := MIN_ENTITY_COUNT
    search_high := MAX_ENTITY_COUNT
    frame_counter := 0 }

/-- Currently selected workload type. -/
inductive SelectedWorkload where
  | SimpleIteration
  | MultiComponentRead
  | PositionVelocity
  | SpawnDespawn
  | ComponentAddRemove
  | FragmentedArchetypes
  deriving Repr, DecidableEq

/-- `SelectedWorkload::name`. -/
def SelectedWorkload.name : SelectedWorkload → String
  | .SimpleIteration => "Simple Iteration"
  | .MultiComponentRead => "Multi-Component Read"
  | .PositionVelocity => "Position/Velocity Update"
  | .SpawnDespawn => "Spawn/Despawn Churn"
  | .ComponentAddRemove => "Component Add/Remove"
  | .FragmentedArchetypes => "Fragmented Archetypes"

/-- `SelectedWorkload::description`. -/
def SelectedWorkload.description : SelectedWorkload → String
  | .SimpleIteration => "Read-only iteration over single component"
  | .MultiComponentRead => "Read 3 components per entity"
  | .PositionVelocity => "Classic game loop: position += velocity"
  | .SpawnDespawn => "Spawn and despawn entities each frame"
  | .ComponentAddRemove => "Add/remove components on existing entities"
  | .FragmentedArchetypes => "Entities spread across many archetypes"

/-- `SelectedWorkload::all`, in registration order. -/
def SelectedWorkload.all : List SelectedWorkload :=
  [.SimpleIteration, .MultiComponentRead, .PositionVelocity,
   .SpawnDespawn, .ComponentAddRemove, .FragmentedArchetypes]

/-! ### `src/benchmark/runner.rs`: the Adjusting step -/

/-- Messages written by `adjust_entity_count`
(`DespawnAllRequest`, `SpawnEntitiesRequest`, `BenchmarkComplete`). -/
inductive RunnerEvent where
  | despawnAll
  | spawn (count : ℕ)
  | complete (breakdown : ℕ) (throughput : ℚ)
  deriving Repr, DecidableEq

/-- Result of one run of the `adjust_entity_count` system: the updated
`BenchmarkState`, the phase written to `NextState`, and the messages sent. -/
structure AdjustResult where
  state : BenchmarkState
  phase : BenchmarkPhase
  events : List RunnerEvent
  deriving Repr, DecidableEq

/-- Rust's `v.clamp(lo, hi)` on `usize` (callers guarantee `lo ≤ hi`). -/
def clampNat (v lo hi : ℕ) : ℕ :=
  if v < lo then lo else if v > hi then hi else v

/-- The `adjust_entity_count` system.  Note the source computes
`state.search_high - state.search_low` on `usize`: the `ℕ` subtraction here
coincides with it exactly when `search_low ≤ search_high` (otherwise the
source wraps in release builds or panics in debug builds). -/
def adjust_entity_count (st : BenchmarkState) (stats : SampleStats) : AdjustResult :=
  let exceeds_target := stats.median_exceeds TARGET_FRAME_TIME_MS
  let st1 :=
    if exceeds_target then { st with search_high := st.entity_count }
    else { st with search_low := st.entity_count }
  let gap : ℕ := st1.search_high - st1.search_low
  let relative_gap : ℚ := (gap : ℚ) / (st1.entity_count : ℚ)
  if relative_gap < 2 / 100 ∨ gap < MIN_CONVERGENCE_GAP then
    let breakdown : ℕ := if exceeds_target then st1.search_low else st1.entity_count
    let throughput := (breakdown : ℚ) * (1000 / stats.median)
    { state := st1
      phase := BenchmarkPhase.Complete
      events := [RunnerEvent.complete breakdown throughput] }
  else
    let next_count :=
      clampNat
        (if exceeds_target = false ∧ st1.search_high = MAX_ENTITY_COUNT then
          (⌊(st1.entity_count : ℚ) * GROWTH_MULTIPLIER⌋).toNat
        else
          (st1.search_low + st1.search_high) / 2)
        MIN_ENTITY_COUNT MAX_ENTITY_COUNT
    { state := { st1 with entity_count := next_count }
      phase := BenchmarkPhase.WarmUp
      events := [RunnerEvent.despawnAll, RunnerEvent.spawn next_count] }

/-! ### Spec-side formulations for the Adjusting step (claims C1, C2)

These definitions follow the wording of the specification, to be compared
with `adjust_entity_count` (which is transcribed from the source). -/

/-- The spec's `gap = search_high - search_low`, with the bounds already
tightened by the current probe (`search_high = entity_count` on an
over-target probe, `search_low = entity_count` otherwise). -/
def specGap (st : BenchmarkState) (stats : SampleStats) : ℕ :=
  if stats.median > TARGET_FRAME_TIME_MS then st.entity_count - st.search_low
  else st.search_high - st.entity_count

/-- The spec's convergence test:
`relative_gap < 0.02` or `gap < MIN_CONVERGENCE_GAP`. -/
def convergedSpec (st : BenchmarkState) (stats : SampleStats) : Prop :=
  (specGap st stats : ℚ) / (st.entity_count : ℚ) < 2 / 100 ∨
    specGap st stats < MIN_CONVERGENCE_GAP

instance (st : BenchmarkState) (stats : SampleStats) :
    Decidable (convergedSpec st stats) := by
  unfold convergedSpec; infer_instance

/-- The spec's declared breakdown point: `search_low` if the last probe
exceeded target, else the current `entity_count`. -/
def breakdownSpec (st : BenchmarkState) (stats : SampleStats) : ℕ :=
  if stats.median > TARGET_FRAME_TIME_MS then st.search_low else st.entity_count

/-- The spec's next probe: `entity_count` times the growth factor while
under target with the ceiling still at its unbounded sentinel, otherwise the
integer midpoint of the (updated) bounds; clamped to
`[MIN_ENTITY_COUNT, MAX_ENTITY_COUNT]`. -/
def nextCountSpec (st : BenchmarkState) (stats : SampleStats) : ℕ :=
  clampNat
    (if ¬ stats.median > TARGET_FRAME_TIME_MS ∧ st.search_high = MAX_ENTITY_COUNT then
      2 * st.entity_count
    else
      ((if stats.median > TARGET_FRAME_TIME_MS then st.search_low else st.entity_count) +
        (if stats.median > TARGET_FRAME_TIME_MS then st.entity_count else st.search_high)) / 2)
    MIN_ENTITY_COUNT MAX_ENTITY_COUNT

lemma median_exceeds_eq_true_iff (s : SampleStats) (t : ℚ) :
    s.median_exceeds t = true ↔ s.median > t := by
  simp [SampleStats.median_exceeds]

lemma growth_eq_two_mul (n : ℕ) :
    (⌊(n : ℚ) * GROWTH_MULTIPLIER⌋).toNat = 2 * n := by
  have h : ((n : ℚ) * GROWTH_MULTIPLIER) = ((2 * n : ℕ) : ℚ) := by
    unfold GROWTH_MULTIPLIER; push_cast; ring
  rw [h, Int.floor_natCast, Int.toNat_natCast]

lemma throughput_eq_div (b : ℕ) (m : ℚ) :
    (b : ℚ) * (1000 / m) = (b : ℚ) / (m / 1000) := by
  rw [div_div_eq_mul_div, mul_div_assoc]

/-- C1.  On an Adjusting step the bounds are tightened exactly as the spec
says, the step declares convergence precisely under the spec's convergence
test, and on convergence it keeps the entity count, reports the spec's
breakdown point with throughput `breakdown / median-tick-time-in-seconds`,
and moves the phase to `Complete`. -/
theorem adjusting_converged_spec (st : BenchmarkState) (stats : SampleStats)
    (h1 : st.search_low ≤ st.entity_count) (h2 : st.entity_count ≤ st.search_high) :
    ((adjust_entity_count st stats).state.search_high =
      if stats.median > TARGET_FRAME_TIME_MS then st.entity_count else st.search_high)
    ∧ ((adjust_entity_count st stats).state.search_low =
      if stats.median > TARGET_FRAME_TIME_MS then st.search_low else st.entity_count)
    ∧ ((adjust_entity_count st stats).phase = BenchmarkPhase.Complete ↔
      convergedSpec st stats)
    ∧ (convergedSpec st stats →
      (adjust_entity_count st stats).state.entity_count = st.entity_count
      ∧ (adjust_entity_count st stats).events =
        [RunnerEvent.complete (breakdownSpec st stats)
          ((breakdownSpec st stats : ℚ) / (stats.median / 1000))]) := by
  unfold adjust_entity_count convergedSpec breakdownSpec specGap
  by_cases hx : stats.median > TARGET_FRAME_TIME_MS
  · by_cases hc :
      ((st.entity_count - st.search_low : ℕ) : ℚ) / (st.entity_count : ℚ) < 2 / 100 ∨
        (st.entity_count - st.search_low : ℕ) < MIN_CONVERGENCE_GAP
    · simp [SampleStats.median_exceeds, hx, hc, throughput_eq_div]
    · simp [SampleStats.median_exceeds, hx, hc]
  · by_cases hc :
      ((st.search_high - st.entity_count : ℕ) : ℚ) / (st.entity_count : ℚ) < 2 / 100 ∨
        (st.search_high - st.entity_count : ℕ) < MIN_CONVERGENCE_GAP
    · simp [SampleStats.median_exceeds, hx, hc, throughput_eq_div]
    · simp [SampleStats.median_exceeds, hx, hc]

/-- C1 witness: a concrete converged over-target step. -/
theorem adjusting_converged_spec_witness :
    ({ BenchmarkState.default with
        entity_count := 10000, search_low := 9950 } : BenchmarkState).search_low ≤ 10000
    ∧ (adjust_entity_count
        { BenchmarkState.default with entity_count := 10000, search_low := 9950 }
        { SampleStats.default with median := 20 }).phase = BenchmarkPhase.Complete := by
  refine ⟨by decide, ?_⟩
  have hconv : convergedSpec
      { BenchmarkState.default with entity_count := 10000, search_low := 9950 }
      { SampleStats.default with median := 20 } :=
    Or.inr (by norm_num [specGap, TARGET_FRAME_TIME_MS, MIN_CONVERGENCE_GAP,
      BenchmarkState.default, SampleStats.default])
  have h := adjusting_converged_spec
    { BenchmarkState.default with entity_count := 10000, search_low := 9950 }
    { SampleStats.default with median := 20 }
    (by decide) (by decide)
  exact h.2.2.1.mpr hconv

lemma le_clampNat (v lo hi : ℕ) (h : lo ≤ hi) : lo ≤ clampNat v lo hi := by
  unfold clampNat; split_ifs <;> omega

lemma clampNat_le (v lo hi : ℕ) (h : lo ≤ hi) : clampNat v lo hi ≤ hi := by
  unfold clampNat; split_ifs <;> omega

lemma clampNat_eq_of_le (v lo hi : ℕ) (h1 : lo ≤ v) (h2 : v ≤ hi) :
    clampNat v lo hi = v := by
  unfold clampNat; split_ifs <;> omega

lemma min_le_max_entity_count : MIN_ENTITY_COUNT ≤ MAX_ENTITY_COUNT := by decide

/-- C2.  On an Adjusting step that does not converge, the next entity count
is the spec's: grow by the factor 2.0 exactly when under target with the
ceiling still at its unbounded sentinel, else the integer midpoint of the
updated bounds, clamped to `[MIN_ENTITY_COUNT, MAX_ENTITY_COUNT]`; it is
assigned to `entity_count`, a despawn-all plus a spawn request at the new
count are emitted, and the phase returns to `WarmUp`. -/
theorem adjusting_search_spec (st : BenchmarkState) (stats : SampleStats)
    (h1 : st.search_low ≤ st.entity_count) (h2 : st.entity_count ≤ st.search_high)
    (hnc : ¬ convergedSpec st stats) :
    (adjust_entity_count st stats).phase = BenchmarkPhase.WarmUp
    ∧ (adjust_entity_count st stats).state.entity_count = nextCountSpec st stats
    ∧ (adjust_entity_count st stats).events =
      [RunnerEvent.despawnAll, RunnerEvent.spawn (nextCountSpec st stats)]
    ∧ MIN_ENTITY_COUNT ≤ nextCountSpec st stats
    ∧ nextCountSpec st stats ≤ MAX_ENTITY_COUNT := by
  refine ?_
  have hbounds : MIN_ENTITY_COUNT ≤ nextCountSpec st stats ∧
      nextCountSpec st stats ≤ MAX_ENTITY_COUNT := by
    unfold nextCountSpec
    exact ⟨le_clampNat _ _ _ min_le_max_entity_count,
      clampNat_le _ _ _ min_le_max_entity_count⟩
  unfold convergedSpec specGap at hnc
  by_cases hx : stats.median > TARGET_FRAME_TIME_MS
  · have hc : ¬ (((st.entity_count - st.search_low : ℕ) : ℚ) / (st.entity_count : ℚ) < 2 / 100 ∨
        st.entity_count - st.search_low < MIN_CONVERGENCE_GAP) := by
      simpa [hx] using hnc
    refine ⟨?_, ?_, ?_, hbounds.1, hbounds.2⟩ <;>
      simp [adjust_entity_count, nextCountSpec, SampleStats.median_exceeds, hx, hc,
        growth_eq_two_mul]
  · have hc : ¬ (((st.search_high - st.entity_count : ℕ) : ℚ) / (st.entity_count : ℚ) < 2 / 100 ∨
        st.search_high - st.entity_count < MIN_CONVERGENCE_GAP) := by
      simpa [hx] using hnc
    refine ⟨?_, ?_, ?_, hbounds.1, hbounds.2⟩ <;>
      simp [adjust_entity_count, nextCountSpec, SampleStats.median_exceeds, hx, hc,
        growth_eq_two_mul]

/-- C2 witness: a concrete non-converged over-target step (bisection). -/
theorem adjusting_search_spec_witness :
    (¬ convergedSpec BenchmarkState.default { SampleStats.default with median := 20 })
    ∧ (adjust_entity_count BenchmarkState.default
        { SampleStats.default with median := 20 }).phase = BenchmarkPhase.WarmUp := by
  have hnc : ¬ convergedSpec BenchmarkState.default
      { SampleStats.default with median := 20 } := by
    unfold convergedSpec specGap
    push_neg
    constructor
    · norm_num [BenchmarkState.default, SampleStats.default, TARGET_FRAME_TIME_MS,
        INITIAL_ENTITY_COUNT, MIN_ENTITY_COUNT]
    · norm_num [BenchmarkState.default, SampleStats.default, TARGET_FRAME_TIME_MS,
        INITIAL_ENTITY_COUNT, MIN_ENTITY_COUNT, MIN_CONVERGENCE_GAP]
  exact ⟨hnc, (adjusting_search_spec BenchmarkState.default _ (by decide) (by decide) hnc).1⟩

/-! ### Sample statistics (claims C5, C6) -/

/-- C6.  On the empty sample sequence `sample_stats` returns the all-zero
default: every statistic field is `0` and `count = 0` (the function is
total, so no error can be raised). -/
theorem sample_stats_empty :
    sample_stats [] = SampleStats.default
    ∧ (sample_stats []).min = 0 ∧ (sample_stats []).max = 0
    ∧ (sample_stats []).median = 0 ∧ (sample_stats []).mean = 0
    ∧ (sample_stats []).std_dev_sq = 0 ∧ (sample_stats []).p95 = 0
    ∧ (sample_stats []).p99 = 0 ∧ (sample_stats []).count = 0 :=
  ⟨rfl, rfl, rfl, rfl, rfl, rfl, rfl, rfl, rfl⟩

lemma headD_mem {s : List ℚ} (h : s ≠ []) : s.headD 0 ∈ s := by
  cases s with
  | nil => exact absurd rfl h
  | cons a t => exact List.mem_cons_self a t

lemma sorted_headD_le {s : List ℚ} (hs : s.Sorted (· ≤ ·)) :
    ∀ x ∈ s, s.headD 0 ≤ x := by
  cases s with
  | nil => simp
  | cons a t =>
    intro x hx
    rcases List.mem_cons.mp hx with rfl | h
    · exact le_refl x
    · exact (List.sorted_cons.mp hs).1 x h

lemma getLastD_mem : ∀ {s : List ℚ}, s ≠ [] → s.getLastD 0 ∈ s
  | [a], _ => List.mem_cons_self a []
  | a :: b :: t, _ => by
    have ih := getLastD_mem (s := b :: t) (by simp)
    rw [List.getLastD_cons 0 a (b :: t), List.getLastD_cons a b t, ← List.getLastD_cons 0 b t]
    exact List.mem_cons_of_mem a ih

lemma sorted_le_getLastD : ∀ {s : List ℚ}, s.Sorted (· ≤ ·) →
    ∀ x ∈ s, x ≤ s.getLastD 0
  | [], _, x, hx => by simp at hx
  | [a], _, x, hx => by
    simp only [List.mem_singleton] at hx
    simpa [hx] using le_refl a
  | a :: b :: t, hs, x, hx => by
    have hs' := List.sorted_cons.mp hs
    have ih := sorted_le_getLastD hs'.2
    rw [List.getLastD_cons 0 a (b :: t), List.getLastD_cons a b t, ← List.getLastD_cons 0 b t]
    rcases List.mem_cons.mp hx with rfl | h
    · exact le_trans (hs'.1 b (List.mem_cons_self b t))
        (ih b (List.mem_cons_self b t))
    · exact ih x h

lemma headD_eq_getD {s : List ℚ} (h : s ≠ []) : s.headD 0 = s.getD 0 0 := by
  cases s with
  | nil => exact absurd rfl h
  | cons a t => rfl

lemma getLastD_eq_getD : ∀ {s : List ℚ}, s ≠ [] →
    s.getLastD 0 = s.getD (s.length - 1) 0
  | [a], _ => rfl
  | a :: b :: t, _ => by
    have ih := getLastD_eq_getD (s := b :: t) (by simp)
    rw [List.getLastD_cons 0 a (b :: t), List.getLastD_cons a b t, ← List.getLastD_cons 0 b t, ih]
    rfl

lemma sorted_getD_mono {s : List ℚ} (hs : s.Sorted (· ≤ ·)) {i j : ℕ}
    (hij : i ≤ j) (hj : j < s.length) : s.getD i 0 ≤ s.getD j 0 := by
  have hi : i < s.length := lt_of_le_of_lt hij hj
  rw [List.getD_eq_getElem _ _ hi, List.getD_eq_getElem _ _ hj]
  exact hs.rel_get_of_le (a := ⟨i, hi⟩) (b := ⟨j, hj⟩) hij

lemma getD_mem {s : List ℚ} {i : ℕ} (hi : i < s.length) : s.getD i 0 ∈ s := by
  rw [List.getD_eq_getElem _ _ hi]
  exact List.getElem_mem hi

/-- Explicit form of `sample_stats` on a non-empty list. -/
lemma sample_stats_eq (l : List ℚ) (hne : l ≠ []) :
    sample_stats l =
      { min := (List.insertionSort (· ≤ ·) l).headD 0
        max := (List.insertionSort (· ≤ ·) l).getLastD 0
        median :=
          if (List.insertionSort (· ≤ ·) l).length % 2 = 0 then
            ((List.insertionSort (· ≤ ·) l).getD
                ((List.insertionSort (· ≤ ·) l).length / 2 - 1) 0 +
              (List.insertionSort (· ≤ ·) l).getD
                ((List.insertionSort (· ≤ ·) l).length / 2) 0) / 2
          else (List.insertionSort (· ≤ ·) l).getD
            ((List.insertionSort (· ≤ ·) l).length / 2) 0
        mean := l.sum / (l.length : ℚ)
        std_dev_sq := ((l.map (fun x => (x - l.sum / (l.length : ℚ)) ^ 2)).sum) /
          (l.length : ℚ)
        p95 := (List.insertionSort (· ≤ ·) l).getD
          (min (⌊((List.insertionSort (· ≤ ·) l).length : ℚ) * (95 / 100)⌋).toNat
            ((List.insertionSort (· ≤ ·) l).length - 1)) 0
        p99 := (List.insertionSort (· ≤ ·) l).getD
          (min (⌊((List.insertionSort (· ≤ ·) l).length : ℚ) * (99 / 100)⌋).toNat
            ((List.insertionSort (· ≤ ·) l).length - 1)) 0
        count := l.length } := by
  rw [sample_stats, if_neg (by simp [hne])]

/-- C5.  For a non-empty sample list, `sample_stats` returns: the least and
greatest element as `min`/`max`; the central element (or the average of the
two central elements) of the sorted sequence as `median`; the arithmetic
average as `mean`; the population variance (dividing by `N`, not `N - 1`)
as the square of the standard deviation; and as `p95`/`p99` the elements of
the ascending-sorted sequence at index `floor(N * 0.95)` / `floor(N * 0.99)`
clamped to the last valid index.  Consequently `min ≤ median ≤ max` and
`p95 ≤ p99`. -/
theorem sample_stats_spec (l : List ℚ) (hne : l ≠ []) :
    ((sample_stats l).min ∈ l ∧ ∀ x ∈ l, (sample_stats l).min ≤ x)
    ∧ ((sample_stats l).max ∈ l ∧ ∀ x ∈ l, x ≤ (sample_stats l).max)
    ∧ (∀ l2 : List ℚ, List.Perm l l2 → l2.Sorted (· ≤ ·) →
      ((sample_stats l).median =
        if l.length % 2 = 0 then
          (l2.getD (l.length / 2 - 1) 0 + l2.getD (l.length / 2) 0) / 2
        else l2.getD (l.length / 2) 0)
      ∧ (sample_stats l).p95 =
          l2.getD (min (⌊(l.length : ℚ) * (95 / 100)⌋).toNat (l.length - 1)) 0
      ∧ (sample_stats l).p99 =
          l2.getD (min (⌊(l.length : ℚ) * (99 / 100)⌋).toNat (l.length - 1)) 0)
    ∧ (sample_stats l).mean = l.sum / (l.length : ℚ)
    ∧ (sample_stats l).std_dev_sq =
        ((l.map (fun x => (x - l.sum / (l.length : ℚ)) ^ 2)).sum) / (l.length : ℚ)
    ∧ (sample_stats l).count = l.length
    ∧ (sample_stats l).min ≤ (sample_stats l).median
    ∧ (sample_stats l).median ≤ (sample_stats l).max
    ∧ (sample_stats l).p95 ≤ (sample_stats l).p99 := by
  have hperm : List.Perm (List.insertionSort (· ≤ ·) l) l :=
    List.perm_insertionSort (· ≤ ·) l
  have hsort : (List.insertionSort (· ≤ ·) l).Sorted (· ≤ ·) :=
    List.sorted_insertionSort (· ≤ ·) l
  have hlen : (List.insertionSort (· ≤ ·) l).length = l.length := hperm.length_eq
  have hne' : List.insertionSort (· ≤ ·) l ≠ [] := by
    intro h
    exact hne (List.length_eq_zero.mp (by rw [← hlen, h]; rfl))
  have npos : 0 < (List.insertionSort (· ≤ ·) l).length :=
    List.length_pos.mpr hne'
  rw [sample_stats_eq l hne]
  refine ⟨⟨?_, ?_⟩, ⟨?_, ?_⟩, ?_, rfl, rfl, rfl, ?_, ?_, ?_⟩
  · exact hperm.mem_iff.mp (headD_mem hne')
  · intro x hx
    exact sorted_headD_le hsort x (hperm.mem_iff.mpr hx)
  · exact hperm.mem_iff.mp (getLastD_mem hne')
  · intro x hx
    exact sorted_le_getLastD hsort x (hperm.mem_iff.mpr hx)
  · intro l2 hp hs2
    have hl2 : l2 = List.insertionSort (· ≤ ·) l :=
      List.eq_of_perm_of_sorted (hp.symm.trans hperm.symm) hs2 hsort
    subst hl2
    rw [hlen]
    exact ⟨rfl, rfl, rfl⟩
  · -- min ≤ median
    rw [headD_eq_getD hne']
    by_cases hpar : (List.insertionSort (· ≤ ·) l).length % 2 = 0
    · rw [if_pos hpar]
      have h2 : 2 ≤ (List.insertionSort (· ≤ ·) l).length := by omega
      have ha := sorted_getD_mono hsort (Nat.zero_le _)
        (show (List.insertionSort (· ≤ ·) l).length / 2 - 1 <
          (List.insertionSort (· ≤ ·) l).length by omega)
      have hb := sorted_getD_mono hsort (Nat.zero_le _)
        (show (List.insertionSort (· ≤ ·) l).length / 2 <
          (List.insertionSort (· ≤ ·) l).length by omega)
      linarith
    · rw [if_neg hpar]
      exact sorted_getD_mono hsort (Nat.zero_le _) (by omega)
  · -- median ≤ max
    rw [getLastD_eq_getD hne']
    by_cases hpar : (List.insertionSort (· ≤ ·) l).length % 2 = 0
    · rw [if_pos hpar]
      have h2 : 2 ≤ (List.insertionSort (· ≤ ·) l).length := by omega
      have ha := sorted_getD_mono hsort
        (show (List.insertionSort (· ≤ ·) l).length / 2 - 1 ≤
          (List.insertionSort (· ≤ ·) l).length - 1 by omega) (by omega)
      have hb := sorted_getD_mono hsort
        (show (List.insertionSort (· ≤ ·) l).length / 2 ≤
          (List.insertionSort (· ≤ ·) l).length - 1 by omega) (by omega)
      linarith
    · rw [if_neg hpar]
      exact sorted_getD_mono hsort (by omega) (by omega)
  · -- p95 ≤ p99
    have hidx : (⌊((List.insertionSort (· ≤ ·) l).length : ℚ) * (95 / 100)⌋).toNat ≤
        (⌊((List.insertionSort (· ≤ ·) l).length : ℚ) * (99 / 100)⌋).toNat := by
      apply Int.toNat_le_toNat
      apply Int.floor_le_floor
      have h0 : (0 : ℚ) ≤ ((List.insertionSort (· ≤ ·) l).length : ℚ) :=
        Nat.cast_nonneg _
      linarith
    exact sorted_getD_mono hsort
      (min_le_min hidx (le_refl _))
      (by omega)

/-- C5 witness: a concrete non-empty sample list. -/
theorem sample_stats_spec_witness :
    ([3, 1, 2] : List ℚ) ≠ [] ∧ (sample_stats [3, 1, 2]).min ∈ ([3, 1, 2] : List ℚ) := by
  have h := sample_stats_spec [3, 1, 2] (by simp)
  exact ⟨by simp, h.1.1⟩

/-! ### Sampling-phase bookkeeping (claim C9) -/

/-- The state the sampling loop touches: `FrameMetrics.samples`,
`BenchmarkState.frame_counter`, and the benchmark phase. -/
structure SamplingModel where
  samples : List ℚ
  frame_counter : ℕ
  phase : BenchmarkPhase
  deriving Repr, DecidableEq

/-- `handle_phase_transitions` on entering `Sampling`:
`metrics.clear_samples()` and `state.frame_counter = 0`. -/
def enterSampling (m : SamplingModel) : SamplingModel :=
  { m with samples := [], frame_counter := 0, phase := BenchmarkPhase.Sampling }

/-- The `collect_samples` system for one tick with delta time `dt`
(seconds): `metrics.add_sample` pushes `dt * 1000` milliseconds, the frame
counter is incremented, and once it reaches `SAMPLE_FRAMES` it resets and
the phase moves to `Adjusting`.  The system is gated on the `Sampling`
phase (`run_if(in_state(BenchmarkPhase::Sampling))`). -/
def collect_samples (dt : ℚ) (m : SamplingModel) : SamplingModel :=
  if m.phase = BenchmarkPhase.Sampling then
    let samples := m.samples ++ [dt * 1000]
    let c := m.frame_counter + 1
    if SAMPLE_FRAMES ≤ c then
      { samples := samples, frame_counter := 0, phase := BenchmarkPhase.Adjusting }
    else
      { samples := samples, frame_counter := c, phase := BenchmarkPhase.Sampling }
  else m

/-- `n` ticks of `collect_samples` with per-tick delta times `f`. -/
def samplingIter (f : ℕ → ℚ) : ℕ → SamplingModel → SamplingModel
  | 0, m => m
  | n + 1, m => collect_samples (f n) (samplingIter f n m)

lemma samplingIter_invariant (f : ℕ → ℚ) (m0 : SamplingModel) :
    ∀ n, n ≤ SAMPLE_FRAMES →
      (samplingIter f n (enterSampling m0)).samples =
        (List.range n).map (fun i => f i * 1000)
      ∧ (samplingIter f n (enterSampling m0)).frame_counter =
        (if n < SAMPLE_FRAMES then n else 0)
      ∧ (samplingIter f n (enterSampling m0)).phase =
        (if n < SAMPLE_FRAMES then BenchmarkPhase.Sampling else BenchmarkPhase.Adjusting) := by
  intro n
  induction n with
  | zero =>
    intro _
    refine ⟨rfl, ?_, ?_⟩ <;> simp [samplingIter, enterSampling, SAMPLE_FRAMES]
  | succ n ih =>
    intro hn
    have hlt : n < SAMPLE_FRAMES := by omega
    obtain ⟨hsamp, hcnt, hph⟩ := ih (le_of_lt hlt)
    have hph' : (samplingIter f n (enterSampling m0)).phase = BenchmarkPhase.Sampling := by
      rw [hph, if_pos hlt]
    have hcnt' : (samplingIter f n (enterSampling m0)).frame_counter = n := by
      rw [hcnt, if_pos hlt]
    by_cases hend : n + 1 < SAMPLE_FRAMES
    · refine ⟨?_, ?_, ?_⟩ <;>
        simp [samplingIter, collect_samples, hph', hcnt', hsamp, hend,
          List.range_succ, Nat.not_le.mpr hend]
    · have heq : n + 1 = SAMPLE_FRAMES := by omega
      refine ⟨?_, ?_, ?_⟩ <;>
        simp [samplingIter, collect_samples, hph', hcnt', hsamp, hend,
          List.range_succ, ← heq, le_refl]

/-- C9.  Starting from entry into the `Sampling` phase (which clears the
sample buffer and the frame counter), the run stays in `Sampling` with
exactly one sample appended per tick until the counter reaches
`SAMPLE_FRAMES = 120`, at which point the phase moves to `Adjusting` with
exactly `SAMPLE_FRAMES` samples in the buffer; the statistics consumed by
the Adjusting step therefore have `count = 120 ≠ 0`, and
`adjust_entity_count` is insensitive to the `count` field. -/
theorem sampling_window_spec (f : ℕ → ℚ) (m0 : SamplingModel) :
    (∀ n, n < SAMPLE_FRAMES →
      (samplingIter f n (enterSampling m0)).phase = BenchmarkPhase.Sampling
      ∧ (samplingIter f n (enterSampling m0)).samples.length = n)
    ∧ (samplingIter f SAMPLE_FRAMES (enterSampling m0)).phase = BenchmarkPhase.Adjusting
    ∧ (samplingIter f SAMPLE_FRAMES (enterSampling m0)).samples.length = SAMPLE_FRAMES
    ∧ (sample_stats (samplingIter f SAMPLE_FRAMES (enterSampling m0)).samples).count =
        SAMPLE_FRAMES
    ∧ SAMPLE_FRAMES ≠ 0
    ∧ (∀ (st : BenchmarkState) (stats : SampleStats) (c : ℕ),
        adjust_entity_count st { stats with count := c } = adjust_entity_count st stats) := by
  have hfull := samplingIter_invariant f m0 SAMPLE_FRAMES (le_refl _)
  have hlen : (samplingIter f SAMPLE_FRAMES (enterSampling m0)).samples.length =
      SAMPLE_FRAMES := by
    rw [hfull.1]
    simp only [List.length_map, List.length_range]
  refine ⟨?_, ?_, hlen, ?_, by decide, fun st stats c => rfl⟩
  · intro n hn
    obtain ⟨hsamp, _, hph⟩ := samplingIter_invariant f m0 n (le_of_lt hn)
    refine ⟨by rw [hph, if_pos hn], by rw [hsamp]; simp⟩
  · rw [hfull.2.2, if_neg (by omega)]
  · have hne : (samplingIter f SAMPLE_FRAMES (enterSampling m0)).samples ≠ [] := by
      intro h
      rw [h] at hlen
      exact absurd hlen.symm (by decide)
    generalize hS : (samplingIter f SAMPLE_FRAMES (enterSampling m0)).samples = S at hlen hne ⊢
    rw [sample_stats_eq S hne]
    exact hlen

/-- C9 witness: concrete delta-time stream and start state. -/
theorem sampling_window_spec_witness :
    (0 < SAMPLE_FRAMES) ∧
    (samplingIter (fun _ => 1) 0 (enterSampling ⟨[], 0, BenchmarkPhase.Idle⟩)).phase =
      BenchmarkPhase.Sampling := by
  have h := sampling_window_spec (fun _ => 1) ⟨[], 0, BenchmarkPhase.Idle⟩
  exact ⟨by decide, (h.1 0 (by decide)).1⟩

/-! ### Engine operations on `BenchmarkState` (claims C4, C10) -/

/-- `handle_input`: the manual step size, large with shift held. -/
def manualStep (shift : Bool) : ℕ :=
  if shift then MANUAL_STEP_SIZE_LARGE else MANUAL_STEP_SIZE

/-- The operations of `plugin.rs` / `runner.rs` that can touch
`BenchmarkState` over a run: start (Space from Menu/Paused, or Enter),
stop/pause, reset (R), workload selection (1-6), the arrow-key manual
entity-count adjustment, and the Adjusting step. -/
inductive EngineOp where
  | start
  | stop
  | reset
  | selectWorkload
  | manualUp (shift : Bool)
  | manualDown (shift : Bool)
  | adjust (stats : SampleStats)
  deriving Repr, DecidableEq

/-- Effect of each operation on `BenchmarkState`: `start_benchmark` and
`reset_benchmark` call `state.reset()`, `stop_benchmark` leaves the state
alone, workload selection calls `reset_for_new_workload`, ArrowUp sets
`entity_count = (entity_count + step).min(MAX_ENTITY_COUNT)`, ArrowDown
sets `entity_count = entity_count.saturating_sub(step).max(MIN_ENTITY_COUNT)`,
and the Adjusting step applies `adjust_entity_count`. -/
def engineStep (st : BenchmarkState) : EngineOp → BenchmarkState
  | .start => st.reset
  | .stop => st
  | .reset => st.reset
  | .selectWorkload => st.reset_for_new_workload
  | .manualUp shift =>
    { st with entity_count := min (st.entity_count + manualStep shift) MAX_ENTITY_COUNT }
  | .manualDown shift =>
    { st with entity_count := max (st.entity_count - manualStep shift) MIN_ENTITY_COUNT }
  | .adjust stats => (adjust_entity_count st stats).state

/-- The state after a sequence of engine operations from
`BenchmarkState::default()`. -/
def engineRun (ops : List EngineOp) : BenchmarkState :=
  ops.foldl engineStep BenchmarkState.default

lemma adjust_entity_count_min_le (st : BenchmarkState) (stats : SampleStats)
    (h : MIN_ENTITY_COUNT ≤ st.entity_count) :
    MIN_ENTITY_COUNT ≤ (adjust_entity_count st stats).state.entity_count := by
  unfold adjust_entity_count
  by_cases hx : stats.median > TARGET_FRAME_TIME_MS <;>
    simp only [SampleStats.median_exceeds, hx, decide_eq_true_eq] <;>
    · split_ifs <;>
        first
          | exact h
          | exact le_clampNat _ _ _ min_le_max_entity_count

lemma engineStep_min_le (st : BenchmarkState) (op : EngineOp)
    (h : MIN_ENTITY_COUNT ≤ st.entity_count) :
    MIN_ENTITY_COUNT ≤ (engineStep st op).entity_count := by
  cases op with
  | start => exact (show MIN_ENTITY_COUNT ≤ INITIAL_ENTITY_COUNT by decide)
  | stop => exact h
  | reset => exact (show MIN_ENTITY_COUNT ≤ INITIAL_ENTITY_COUNT by decide)
  | selectWorkload => exact (show MIN_ENTITY_COUNT ≤ INITIAL_ENTITY_COUNT by decide)
  | manualUp shift =>
    exact le_min (le_trans h (Nat.le_add_right _ _)) min_le_max_entity_count
  | manualDown shift => exact le_max_right _ _
  | adjust stats => exact adjust_entity_count_min_le st stats h

lemma engineRun_aux_min_le :
    ∀ (ops : List EngineOp) (st : BenchmarkState),
      MIN_ENTITY_COUNT ≤ st.entity_count →
      MIN_ENTITY_COUNT ≤ (ops.foldl engineStep st).entity_count
  | [], _, h => h
  | op :: t, st, h =>
    engineRun_aux_min_le t (engineStep st op) (engineStep_min_le st op h)

/-- C10.  The initial and reset entity count is 10000; in every state
reachable through the engine operations the entity count stays at least
`MIN_ENTITY_COUNT = 100`, so as a rational it is nonzero and the division
`gap / entity_count` in the convergence test never divides by zero. -/
theorem entity_count_positive (ops : List EngineOp) (st : BenchmarkState) :
    BenchmarkState.default.entity_count = INITIAL_ENTITY_COUNT
    ∧ (BenchmarkState.reset st).entity_count = INITIAL_ENTITY_COUNT
    ∧ MIN_ENTITY_COUNT ≤ (engineRun ops).entity_count
    ∧ ((engineRun ops).entity_count : ℚ) ≠ 0 := by
  have hmin : MIN_ENTITY_COUNT ≤ (engineRun ops).entity_count :=
    engineRun_aux_min_le ops BenchmarkState.default (by decide)
  refine ⟨rfl, rfl, hmin, ?_⟩
  have : (engineRun ops).entity_count ≠ 0 := by
    intro h
    rw [h] at hmin
    exact absurd hmin (by decide)
  exact_mod_cast this

/-- An over-target sample set: median 20ms against the 16.666ms target. -/
def overStats : SampleStats :=
  { SampleStats.default with median := 20 }

/-- C4 counterexample.  A reachable state violating
`search_low ≤ entity_count ≤ search_high`: start a run (entity 10000),
take one over-target Adjusting step (which sets `search_high = 10000` and
bisects to 5050), then press shift-ArrowUp while running (entity 15050,
above `search_high`); an under-target Adjusting step from here would
compute `search_high - search_low` with `search_high < search_low` on
`usize`. -/
theorem search_bounds_invariant_counterexample :
    ¬ ((engineRun [EngineOp.start, EngineOp.adjust overStats,
          EngineOp.manualUp true]).entity_count ≤
        (engineRun [EngineOp.start, EngineOp.adjust overStats,
          EngineOp.manualUp true]).search_high) := by
  have hrun : engineRun [EngineOp.start, EngineOp.adjust overStats,
      EngineOp.manualUp true] =
      { entity_count := 15050, search_low := 100, search_high := 10000
        frame_counter := 0, automated := false, suite_index := 0 } := by
    norm_num [engineRun, engineStep, BenchmarkState.reset, BenchmarkState.default,
      adjust_entity_count, SampleStats.median_exceeds, overStats,
      SampleStats.default, clampNat, manualStep, min_def,
      INITIAL_ENTITY_COUNT, MIN_ENTITY_COUNT, MANUAL_STEP_SIZE_LARGE,
      TARGET_FRAME_TIME_MS, MIN_CONVERGENCE_GAP, MAX_ENTITY_COUNT, USIZE_MAX]
  rw [hrun]
  decide

/-- The search-bounds invariant, strengthened with the clamp range. -/
def BoundsInv (st : BenchmarkState) : Prop :=
  MIN_ENTITY_COUNT ≤ st.search_low ∧ st.search_low ≤ st.entity_count ∧
    st.entity_count ≤ st.search_high ∧ st.search_high ≤ MAX_ENTITY_COUNT

lemma adjust_entity_count_BoundsInv (st : BenchmarkState) (stats : SampleStats)
    (h : BoundsInv st) : BoundsInv (adjust_entity_count st stats).state := by
  obtain ⟨h1, h2, h3, h4⟩ := h
  unfold BoundsInv
  unfold adjust_entity_count
  by_cases hx : stats.median > TARGET_FRAME_TIME_MS
  · simp only [SampleStats.median_exceeds, hx, decide_eq_true_eq, decide_True,
      decide_False, Bool.true_eq_false, Bool.false_eq_true, false_and, true_and,
      eq_self_iff_true, if_true, if_false, ite_true, ite_false]
    split_ifs with hc
    · dsimp only
      refine ⟨?_, ?_, ?_, ?_⟩ <;> omega
    · dsimp only
      rw [clampNat_eq_of_le ((st.search_low + st.entity_count) / 2)
        MIN_ENTITY_COUNT MAX_ENTITY_COUNT (by omega) (by omega)]
      refine ⟨?_, ?_, ?_, ?_⟩ <;> omega
  · simp only [SampleStats.median_exceeds, hx, decide_eq_true_eq, decide_True,
      decide_False, Bool.true_eq_false, Bool.false_eq_true, false_and, true_and,
      eq_self_iff_true, if_true, if_false, ite_true, ite_false]
    split_ifs with hc hmax
    · dsimp only
      refine ⟨?_, ?_, ?_, ?_⟩ <;> omega
    · -- growth branch: search_high = MAX_ENTITY_COUNT
      dsimp only
      rw [growth_eq_two_mul]
      refine ⟨?_, ?_, ?_, ?_⟩ <;>
        first
          | omega
          | (unfold clampNat; split_ifs <;> omega)
    · dsimp only
      rw [clampNat_eq_of_le ((st.entity_count + st.search_high) / 2)
        MIN_ENTITY_COUNT MAX_ENTITY_COUNT (by omega) (by omega)]
      refine ⟨?_, ?_, ?_, ?_⟩ <;> omega

/-- `true` for the operations owned by the engine itself, `false` for the
manual arrow-key adjustments. -/
def EngineOp.engineOwned : EngineOp → Bool
  | .manualUp _ => false
  | .manualDown _ => false
  | _ => true

lemma BoundsInv_reset (st : BenchmarkState) : BoundsInv st.reset :=
  ⟨show MIN_ENTITY_COUNT ≤ MIN_ENTITY_COUNT by decide,
    show MIN_ENTITY_COUNT ≤ INITIAL_ENTITY_COUNT by decide,
    show INITIAL_ENTITY_COUNT ≤ MAX_ENTITY_COUNT by decide,
    show MAX_ENTITY_COUNT ≤ MAX_ENTITY_COUNT by decide⟩

lemma BoundsInv_reset_for_new_workload (st : BenchmarkState) :
    BoundsInv st.reset_for_new_workload :=
  ⟨show MIN_ENTITY_COUNT ≤ MIN_ENTITY_COUNT by decide,
    show MIN_ENTITY_COUNT ≤ INITIAL_ENTITY_COUNT by decide,
    show INITIAL_ENTITY_COUNT ≤ MAX_ENTITY_COUNT by decide,
    show MAX_ENTITY_COUNT ≤ MAX_ENTITY_COUNT by decide⟩

lemma engineStep_BoundsInv (st : BenchmarkState) (op : EngineOp)
    (hop : op.engineOwned = true) (h : BoundsInv st) : BoundsInv (engineStep st op) := by
  cases op with
  | start => exact BoundsInv_reset st
  | stop => exact h
  | reset => exact BoundsInv_reset st
  | selectWorkload => exact BoundsInv_reset_for_new_workload st
  | manualUp shift => exact absurd hop (by simp [EngineOp.engineOwned])
  | manualDown shift => exact absurd hop (by simp [EngineOp.engineOwned])
  | adjust stats => exact adjust_entity_count_BoundsInv st stats h

lemma engineRun_aux_BoundsInv :
    ∀ (ops : List EngineOp) (st : BenchmarkState),
      (∀ op ∈ ops, op.engineOwned = true) → BoundsInv st →
      BoundsInv (ops.foldl engineStep st)
  | [], _, _, h => h
  | op :: t, st, hops, h =>
    engineRun_aux_BoundsInv t (engineStep st op)
      (fun o ho => hops o (List.mem_cons_of_mem op ho))
      (engineStep_BoundsInv st op (hops op (List.mem_cons_self op t)) h)

/-- C4 (amended).  In every state reachable through the engine-owned
operations (start, stop, reset, workload selection, and the Adjusting
step), `search_low ≤ entity_count ≤ search_high` holds, so the unsigned
subtraction `search_high - search_low` of the convergence step never
underflows; the manual arrow-key adjustment while running is excluded, as
`search_bounds_invariant_counterexample` shows it can break the
invariant. -/
theorem search_bounds_invariant_amended (ops : List EngineOp)
    (hops : ∀ op ∈ ops, op.engineOwned = true) :
    (engineRun ops).search_low ≤ (engineRun ops).entity_count
    ∧ (engineRun ops).entity_count ≤ (engineRun ops).search_high
    ∧ (engineRun ops).search_low ≤ (engineRun ops).search_high := by
  have h := engineRun_aux_BoundsInv ops BenchmarkState.default hops
    ⟨show MIN_ENTITY_COUNT ≤ MIN_ENTITY_COUNT by decide,
      show MIN_ENTITY_COUNT ≤ INITIAL_ENTITY_COUNT by decide,
      show INITIAL_ENTITY_COUNT ≤ MAX_ENTITY_COUNT by decide,
      show MAX_ENTITY_COUNT ≤ MAX_ENTITY_COUNT by decide⟩
  exact ⟨h.2.1, h.2.2.1, le_trans h.2.1 h.2.2.1⟩

/-- C4 witness: a run consisting of a start and one Adjusting step. -/
theorem search_bounds_invariant_amended_witness :
    (∀ op ∈ [EngineOp.start, EngineOp.adjust overStats], op.engineOwned = true)
    ∧ (engineRun [EngineOp.start, EngineOp.adjust overStats]).search_low ≤
        (engineRun [EngineOp.start, EngineOp.adjust overStats]).entity_count := by
  have hops : ∀ op ∈ [EngineOp.start, EngineOp.adjust overStats],
      op.engineOwned = true := by
    intro op hop
    rcases List.mem_cons.mp hop with rfl | hop
    · rfl
    · rcases List.mem_cons.mp hop with rfl | hop
      · rfl
      · simp at hop
  exact ⟨hops, (search_bounds_invariant_amended _ hops).1⟩

/-! ### `src/benchmark/results.rs` and the automated suite (claims C7, C8) -/

/-- Main application states. -/
inductive AppState where
  | Menu
  | Running
  | Paused
  | Results
  deriving Repr, DecidableEq

/-- Frame time statistics for a result (`FrameTimeStats`).  As in
`SampleStats`, `std_dev_ms` is represented through the variance it is the
square root of. -/
structure FrameTimeStats where
  min_ms : ℚ
  max_ms : ℚ
  median_ms : ℚ
  mean_ms : ℚ
  std_dev_ms : ℚ
  p95_ms : ℚ
  p99_ms : ℚ
  deriving Repr, DecidableEq

/-- `impl From<SampleStats> for FrameTimeStats`. -/
def FrameTimeStats.ofStats (stats : SampleStats) : FrameTimeStats :=
  ⟨stats.min, stats.max, stats.median, stats.mean, stats.std_dev_sq,
    stats.p95, stats.p99⟩

/-- A single workload's benchmark result (`WorkloadResult`). -/
structure WorkloadResult where
  workload_name : String
  workload_description : String
  breakdown_point : ℕ
  throughput_at_breakdown : ℚ
  frame_time_stats : FrameTimeStats
  deriving Repr, DecidableEq

/-- System information for context (`SystemInfo`); the `os` and
`cpu_cores` values are read from the environment, the Bevy version is the
fixed string "0.17.3". -/
structure SystemInfo where
  os : String
  cpu_cores : ℕ
  bevy_version : String
  deriving Repr, DecidableEq

/-- Complete benchmark report (`BenchmarkReport`); the timestamp is
produced by `chrono::Utc::now().to_rfc3339()` and is kept abstract. -/
structure BenchmarkReport where
  timestamp : String
  target_frame_time_ms : ℚ
  system_info : SystemInfo
  results : List WorkloadResult
  deriving Repr, DecidableEq

/-- `BenchmarkReport::new` (timestamp and system info come from the
environment and are passed in). -/
def BenchmarkReport.new (timestamp : String) (sys : SystemInfo) (target_ms : ℚ) :
    BenchmarkReport :=
  { timestamp := timestamp
    target_frame_time_ms := target_ms
    system_info := sys
    results := [] }

/-- `BenchmarkReport::add_result` (`Vec::push`). -/
def BenchmarkReport.add_result (r : BenchmarkReport) (res : WorkloadResult) :
    BenchmarkReport :=
  { r with results := r.results ++ [res] }

/-- Resource holding collected results (`BenchmarkResults`). -/
structure BenchmarkResults where
  report : Option BenchmarkReport
  current_workload_result : Option WorkloadResult
  deriving Repr, DecidableEq

/-- `BenchmarkResults::start_new_report`. -/
def BenchmarkResults.start_new_report (r : BenchmarkResults) (timestamp : String)
    (sys : SystemInfo) (target_ms : ℚ) : BenchmarkResults :=
  { report := some (BenchmarkReport.new timestamp sys target_ms)
    current_workload_result := none }

/-- `BenchmarkResults::record_workload_result`. -/
def BenchmarkResults.record_workload_result (r : BenchmarkResults)
    (workload : SelectedWorkload) (breakdown_point : ℕ) (throughput : ℚ)
    (stats : SampleStats) : BenchmarkResults :=
  let result : WorkloadResult :=
    { workload_name := workload.name
      workload_description := workload.description
      breakdown_point := breakdown_point
      throughput_at_breakdown := throughput
      frame_time_stats := FrameTimeStats.ofStats stats }
  { current_workload_result := some result
    report :=
      match r.report with
      | some rep => some (rep.add_result result)
      | none => none }

/-- The state the automated suite logic touches. -/
structure SuiteState where
  state : BenchmarkState
  workload : SelectedWorkload
  results : BenchmarkResults
  app : AppState
  phase : BenchmarkPhase
  deriving Repr, DecidableEq

/-- `handle_input`'s Enter branch (from a non-Running state): start a new
report, set `automated = true`, `suite_index = 0`, select the first
workload, reset the state, and start the first benchmark. -/
def start_automated_suite (s : SuiteState) (timestamp : String) (sys : SystemInfo) :
    SuiteState :=
  { state :=
      { s.state.reset with automated := true, suite_index := 0 }
    workload := SelectedWorkload.all.headD SelectedWorkload.SimpleIteration
    results := s.results.start_new_report timestamp sys TARGET_FRAME_TIME_MS
    app := AppState.Running
    phase := BenchmarkPhase.WarmUp }

/-- `handle_benchmark_complete` for one `BenchmarkComplete` event: in
automated mode advance `suite_index`; while more workloads remain, select
the next one, reset for it and return to `WarmUp`; otherwise clear the
automated flag and show the results. -/
def handle_benchmark_complete (s : SuiteState) : SuiteState :=
  if s.state.automated then
    let idx := s.state.suite_index + 1
    if idx < SelectedWorkload.all.length then
      { s with
        state := { s.state.reset_for_new_workload with suite_index := idx }
        workload := SelectedWorkload.all.getD idx SelectedWorkload.SimpleIteration
        phase := BenchmarkPhase.WarmUp }
    else
      { s with
        state := { s.state with suite_index := idx, automated := false }
        app := AppState.Results
        phase := BenchmarkPhase.Complete }
  else s

/-- One workload completion: `adjust_entity_count` records the workload
result when it converges, then the completion event is handled. -/
def completeWorkload (s : SuiteState) (breakdown : ℕ) (throughput : ℚ)
    (stats : SampleStats) : SuiteState :=
  handle_benchmark_complete
    { s with results :=
        s.results.record_workload_result s.workload breakdown throughput stats }

/-- Fold a sequence of workload completions over the suite state. -/
def runSuite (s : SuiteState) (xs : List (ℕ × ℚ × SampleStats)) : SuiteState :=
  xs.foldl (fun acc x => completeWorkload acc x.1 x.2.1 x.2.2) s

/-- C7.  Starting the automated suite and completing six benchmarks (with
arbitrary breakdown/throughput/statistics data) appends exactly 6
`WorkloadResult` entries to the active report, one per registered workload
in registration order, leaves `suite_index` at the length of the workload
list, clears the automated flag, and ends in the Results screen with phase
`Complete`. -/
theorem automated_suite_spec (s0 : SuiteState) (timestamp : String)
    (sys : SystemInfo) (x1 x2 x3 x4 x5 x6 : ℕ × ℚ × SampleStats) :
    ((runSuite (start_automated_suite s0 timestamp sys)
        [x1, x2, x3, x4, x5, x6]).results.report.map
      (fun rep => rep.results.map (fun r => r.workload_name)))
      = some (SelectedWorkload.all.map SelectedWorkload.name)
    ∧ ((runSuite (start_automated_suite s0 timestamp sys)
        [x1, x2, x3, x4, x5, x6]).results.report.map
      (fun rep => rep.results.length)) = some SelectedWorkload.all.length
    ∧ (runSuite (start_automated_suite s0 timestamp sys)
        [x1, x2, x3, x4, x5, x6]).state.suite_index = SelectedWorkload.all.length
    ∧ (runSuite (start_automated_suite s0 timestamp sys)
        [x1, x2, x3, x4, x5, x6]).state.automated = false
    ∧ (runSuite (start_automated_suite s0 timestamp sys)
        [x1, x2, x3, x4, x5, x6]).app = AppState.Results
    ∧ (runSuite (start_automated_suite s0 timestamp sys)
        [x1, x2, x3, x4, x5, x6]).phase = BenchmarkPhase.Complete :=
  ⟨rfl, rfl, rfl, rfl, rfl, rfl⟩

/-! ### Persisted report schema (claim C8) -/

/-- A minimal JSON value model for the serde serialization; an object keeps
its members in emission order. -/
inductive Json where
  | str (s : String)
  | num (q : ℚ)
  | nat (n : ℕ)
  | obj (members : List (String × Json))
  | arr (elems : List Json)

/-- The keys of a JSON object, in order. -/
def Json.objKeys : Json → List String
  | .obj members => members.map Prod.fst
  | _ => []

/-- `#[derive(Serialize)]` for `FrameTimeStats`: fields in declaration
order under their field names. -/
def FrameTimeStats.toJson (s : FrameTimeStats) : Json :=
  .obj [("min_ms", .num s.min_ms), ("max_ms", .num s.max_ms),
    ("median_ms", .num s.median_ms), ("mean_ms", .num s.mean_ms),
    ("std_dev_ms", .num s.std_dev_ms), ("p95_ms", .num s.p95_ms),
    ("p99_ms", .num s.p99_ms)]

/-- `#[derive(Serialize)]` for `SystemInfo`. -/
def SystemInfo.toJson (s : SystemInfo) : Json :=
  .obj [("os", .str s.os), ("cpu_cores", .nat s.cpu_cores),
    ("bevy_version", .str s.bevy_version)]

/-- `#[derive(Serialize)]` for `WorkloadResult`. -/
def WorkloadResult.toJson (r : WorkloadResult) : Json :=
  .obj [("workload_name", .str r.workload_name),
    ("workload_description", .str r.workload_description),
    ("breakdown_point", .nat r.breakdown_point),
    ("throughput_at_breakdown", .num r.throughput_at_breakdown),
    ("frame_time_stats", r.frame_time_stats.toJson)]

/-- `#[derive(Serialize)]` for `BenchmarkReport` (what
`BenchmarkReport::save` writes). -/
def BenchmarkReport.toJson (r : BenchmarkReport) : Json :=
  .obj [("timestamp", .str r.timestamp),
    ("target_frame_time_ms", .num r.target_frame_time_ms),
    ("system_info", r.system_info.toJson),
    ("results", .arr (r.results.map WorkloadResult.toJson))]

/-- A concrete report for evaluating the schema. -/
def sampleReport : BenchmarkReport :=
  { timestamp := "2025-01-01T00:00:00+00:00"
    target_frame_time_ms := TARGET_FRAME_TIME_MS
    system_info := { os := "linux", cpu_cores := 8, bevy_version := "0.17.3" }
    results := [] }

/-- C8 counterexample.  The serialized `system_info` object's field list is
`os, cpu_cores, bevy_version`, not the claimed `os, cpu_cores,
engine_version`. -/
theorem report_schema_counterexample :
    (SystemInfo.toJson sampleReport.system_info).objKeys ≠
      ["os", "cpu_cores", "engine_version"]
    ∧ "engine_version" ∉ (SystemInfo.toJson sampleReport.system_info).objKeys
    ∧ (SystemInfo.toJson sampleReport.system_info).objKeys =
      ["os", "cpu_cores", "bevy_version"] := by
  refine ⟨?_, ?_, rfl⟩ <;> decide

/-- C8 (amended).  A saved `BenchmarkReport` serializes as an object with
exactly the fields `timestamp`, `target_frame_time_ms`, `system_info`
(with exactly `os`, `cpu_cores`, `bevy_version` — not `engine_version`)
and `results[]`, whose entries carry `workload_name`,
`workload_description`, `breakdown_point` (integer),
`throughput_at_breakdown` and `frame_time_stats` with the seven `_ms`
statistics fields. -/
theorem report_schema_spec (r : BenchmarkReport) :
    (BenchmarkReport.toJson r).objKeys =
      ["timestamp", "target_frame_time_ms", "system_info", "results"]
    ∧ (SystemInfo.toJson r.system_info).objKeys = ["os", "cpu_cores", "bevy_version"]
    ∧ "engine_version" ∉ (SystemInfo.toJson r.system_info).objKeys
    ∧ (∀ res ∈ r.results,
        (WorkloadResult.toJson res).objKeys =
          ["workload_name", "workload_description", "breakdown_point",
            "throughput_at_breakdown", "frame_time_stats"]
        ∧ (FrameTimeStats.toJson res.frame_time_stats).objKeys =
          ["min_ms", "max_ms", "median_ms", "mean_ms", "std_dev_ms",
            "p95_ms", "p99_ms"]) := by
  refine ⟨rfl, rfl,
    (show "engine_version" ∉ (["os", "cpu_cores", "bevy_version"] : List String)
      by decide), ?_⟩
  intro res hres
  exact ⟨rfl, rfl⟩

/-- C8 witness: the schema at the concrete report. -/
theorem report_schema_spec_witness :
    (BenchmarkReport.toJson sampleReport).objKeys =
      ["timestamp", "target_frame_time_ms", "system_info", "results"] :=
  (report_schema_spec sampleReport).1

/-! ### The convergence engine as an iterated system (claim C3) -/

/-- A sampling window whose median is `m`: the only field the Adjusting
step's decision logic reads. -/
def medianOnlyStats (m : ℚ) : SampleStats :=
  { SampleStats.default with median := m, count := SAMPLE_FRAMES }

/-- The breakdown point carried by a completion message list, if any. -/
def completedBreakdown : List RunnerEvent → Option ℕ
  | [RunnerEvent.complete b _] => some b
  | _ => none

/-- One full convergence cycle driven by a synthetic median reading `f`
(median as a function of entity count): warm-up and sampling produce the
median `f entity_count`, then the Adjusting step either continues with an
updated state (back through WarmUp/Sampling) or stops with a breakdown
point. -/
def convergeStep (f : ℕ → ℚ) (st : BenchmarkState) : BenchmarkState ⊕ ℕ :=
  let r := adjust_entity_count st (medianOnlyStats (f st.entity_count))
  match completedBreakdown r.events with
  | some b => Sum.inr b
  | none => Sum.inl r.state

/-- Iterated convergence cycles with fuel, recording each probe as
`(entity_count, exceeded-target?)`. -/
def convergeRun (f : ℕ → ℚ) : ℕ → BenchmarkState → List (ℕ × Bool) →
    Option (ℕ × List (ℕ × Bool))
  | 0, _, _ => none
  | fuel + 1, st, tr =>
    match convergeStep f st with
    | Sum.inr b =>
      some (b, tr ++ [(st.entity_count, decide (f st.entity_count > TARGET_FRAME_TIME_MS))])
    | Sum.inl st2 =>
      convergeRun f fuel st2
        (tr ++ [(st.entity_count, decide (f st.entity_count > TARGET_FRAME_TIME_MS))])

/-- Invariant of the running search: the floor is in clamp range, the
current probe is strictly above the floor and at most the ceiling, and the
ceiling is at most the sentinel. -/
def SearchInv (st : BenchmarkState) : Prop :=
  MIN_ENTITY_COUNT ≤ st.search_low ∧ st.search_low < st.entity_count ∧
    st.entity_count ≤ st.search_high ∧ st.search_high ≤ MAX_ENTITY_COUNT

/-- Termination measure: twice the remaining gap, plus one while the probe
sits exactly on the ceiling. -/
def searchMeasure (st : BenchmarkState) : ℕ :=
  2 * (st.search_high - st.search_low) +
    (if st.entity_count = st.search_high then 1 else 0)

lemma convergeStep_inr_facts (f : ℕ → ℚ) (st : BenchmarkState) (b : ℕ)
    (hI : SearchInv st) (h : convergeStep f st = Sum.inr b) :
    st.search_low ≤ b ∧ b ≤ st.search_high
    ∧ (¬ f st.entity_count > TARGET_FRAME_TIME_MS → st.entity_count ≤ b)
    ∧ (f st.entity_count > TARGET_FRAME_TIME_MS → b ≤ st.entity_count) := by
  obtain ⟨h1, h2, h3, h4⟩ := hI
  unfold convergeStep adjust_entity_count at h
  by_cases hx : f st.entity_count > TARGET_FRAME_TIME_MS
  · simp only [medianOnlyStats, SampleStats.median_exceeds, hx, decide_eq_true_eq,
      decide_True, decide_False, Bool.true_eq_false, Bool.false_eq_true, false_and,
      true_and, eq_self_iff_true, if_true, if_false, ite_true, ite_false] at h
    split_ifs at h with hc
    · simp only [completedBreakdown, Sum.inr.injEq] at h
      refine ⟨by omega, by omega, fun hn => absurd hx hn, fun _ => by omega⟩
    · simp only [completedBreakdown] at h
      exact Sum.noConfusion h
  · simp only [medianOnlyStats, SampleStats.median_exceeds, hx, decide_eq_true_eq,
      decide_True, decide_False, Bool.true_eq_false, Bool.false_eq_true, false_and,
      true_and, eq_self_iff_true, if_true, if_false, ite_true, ite_false] at h
    split_ifs at h with hc hmax
    · simp only [completedBreakdown, Sum.inr.injEq] at h
      refine ⟨by omega, by omega, fun _ => by omega, fun hp => absurd hp hx⟩
    · simp only [completedBreakdown] at h
      exact Sum.noConfusion h
    · simp only [completedBreakdown] at h
      exact Sum.noConfusion h

lemma convergeStep_inl_facts (f : ℕ → ℚ) (st st2 : BenchmarkState)
    (hI : SearchInv st) (h : convergeStep f st = Sum.inl st2) :
    SearchInv st2 ∧ searchMeasure st2 < searchMeasure st
    ∧ st.search_low ≤ st2.search_low ∧ st2.search_high ≤ st.search_high
    ∧ (¬ f st.entity_count > TARGET_FRAME_TIME_MS → st.entity_count ≤ st2.search_low)
    ∧ (f st.entity_count > TARGET_FRAME_TIME_MS → st2.search_high ≤ st.entity_count) := by
  obtain ⟨h1, h2, h3, h4⟩ := hI
  have hMCG : MIN_CONVERGENCE_GAP = 100 := rfl
  have hMIN : MIN_ENTITY_COUNT = 100 := rfl
  unfold convergeStep adjust_entity_count at h
  unfold SearchInv searchMeasure
  by_cases hx : f st.entity_count > TARGET_FRAME_TIME_MS
  · simp only [medianOnlyStats, SampleStats.median_exceeds, hx, decide_eq_true_eq,
      decide_True, decide_False, Bool.true_eq_false, Bool.false_eq_true, false_and,
      true_and, eq_self_iff_true, if_true, if_false, ite_true, ite_false] at h
    split_ifs at h with hc
    · simp only [completedBreakdown] at h
      exact Sum.noConfusion h
    · -- over target, bisect down between search_low and entity_count
      have hgap : MIN_CONVERGENCE_GAP ≤ st.entity_count - st.search_low := by
        push_neg at hc
        omega
      simp only [completedBreakdown, Sum.inl.injEq] at h
      subst h
      dsimp only
      refine ⟨⟨?_, ?_, ?_, ?_⟩, ?_, ?_, ?_, fun hn => absurd hx hn, fun _ => ?_⟩ <;>
        first
          | omega
          | (unfold clampNat; split_ifs <;> omega)
  · simp only [medianOnlyStats, SampleStats.median_exceeds, hx, decide_eq_true_eq,
      decide_True, decide_False, Bool.true_eq_false, Bool.false_eq_true, false_and,
      true_and, eq_self_iff_true, if_true, if_false, ite_true, ite_false] at h
    split_ifs at h with hc hmax
    · simp only [completedBreakdown] at h
      exact Sum.noConfusion h
    · -- under target, exponential growth while the ceiling is unconstrained
      have hgap : MIN_CONVERGENCE_GAP ≤ st.search_high - st.entity_count := by
        push_neg at hc
        omega
      simp only [completedBreakdown, Sum.inl.injEq] at h
      subst h
      dsimp only
      rw [growth_eq_two_mul]
      refine ⟨⟨?_, ?_, ?_, ?_⟩, ?_, ?_, ?_, fun _ => ?_, fun hp => absurd hp hx⟩ <;>
        first
          | omega
          | (unfold clampNat; split_ifs <;> omega)
    · -- under target, bisect up between entity_count and search_high
      have hgap : MIN_CONVERGENCE_GAP ≤ st.search_high - st.entity_count := by
        push_neg at hc
        omega
      simp only [completedBreakdown, Sum.inl.injEq] at h
      subst h
      dsimp only
      refine ⟨⟨?_, ?_, ?_, ?_⟩, ?_, ?_, ?_, fun _ => ?_, fun hp => absurd hp hx⟩ <;>
        first
          | omega
          | (unfold clampNat; split_ifs <;> omega)

lemma convergeRun_spec (f : ℕ → ℚ) :
    ∀ (fuel : ℕ) (st : BenchmarkState) (tr : List (ℕ × Bool)),
      SearchInv st → searchMeasure st < fuel →
      (∀ p e, (p, e) ∈ tr →
        (e = false → p ≤ st.search_low) ∧ (e = true → st.search_high ≤ p)) →
      ∃ b tr2, convergeRun f fuel st tr = some (b, tr2) ∧
        ∀ p e, (p, e) ∈ tr2 → (e = false → p ≤ b) ∧ (e = true → b ≤ p) := by
  intro fuel
  induction fuel with
  | zero =>
    intro st tr _ hm _
    exact absurd hm (Nat.not_lt_zero _)
  | succ fuel ih =>
    intro st tr hI hm htr
    rcases hstep : convergeStep f st with st2 | b
    · obtain ⟨hI2, hdec, hlowmono, hhighmono, hunder, hover⟩ :=
        convergeStep_inl_facts f st st2 hI hstep
      have htr2 : ∀ p e,
          (p, e) ∈ tr ++ [(st.entity_count,
            decide (f st.entity_count > TARGET_FRAME_TIME_MS))] →
          (e = false → p ≤ st2.search_low) ∧ (e = true → st2.search_high ≤ p) := by
        intro p e hpe
        rcases List.mem_append.mp hpe with hold | hnew
        · obtain ⟨hf, ht⟩ := htr p e hold
          exact ⟨fun he => le_trans (hf he) hlowmono,
            fun he => le_trans hhighmono (ht he)⟩
        · simp only [List.mem_singleton, Prod.mk.injEq] at hnew
          obtain ⟨rfl, rfl⟩ := hnew
          constructor
          · intro he
            exact hunder (by simpa using he)
          · intro he
            exact hover (by simpa using he)
      obtain ⟨b, tr2, hrun, hbr⟩ := ih st2
        (tr ++ [(st.entity_count, decide (f st.entity_count > TARGET_FRAME_TIME_MS))])
        hI2 (by omega) htr2
      refine ⟨b, tr2, ?_, hbr⟩
      rw [convergeRun, hstep]
      exact hrun
    · obtain ⟨hlb, hub, hunder, hover⟩ := convergeStep_inr_facts f st b hI hstep
      refine ⟨b, tr ++ [(st.entity_count,
        decide (f st.entity_count > TARGET_FRAME_TIME_MS))], ?_, ?_⟩
      · rw [convergeRun, hstep]
      · intro p e hpe
        rcases List.mem_append.mp hpe with hold | hnew
        · obtain ⟨hf, ht⟩ := htr p e hold
          exact ⟨fun he => le_trans (hf he) hlb, fun he => le_trans hub (ht he)⟩
        · simp only [List.mem_singleton, Prod.mk.injEq] at hnew
          obtain ⟨rfl, rfl⟩ := hnew
          constructor
          · intro he
            exact hunder (by simpa using he)
          · intro he
            exact hover (by simpa using he)

/-- C3.  For every monotone synthetic median-reading function, the
convergence engine started from `BenchmarkState::default()`
(`entity_count = 10000`, `search_low = 100`, `search_high` at its
unbounded sentinel) terminates within an explicitly bounded number of
adjustment cycles (`searchMeasure` of the initial state plus one; each
cycle either converges or strictly decreases the measure), and the
returned breakdown point lies between every under-target probe and every
over-target probe, inclusive — in particular between the last under-target
probe and the first over-target probe. -/
theorem convergence_engine_terminates (f : ℕ → ℚ)
    (hmono : ∀ a b : ℕ, a ≤ b → f a ≤ f b) :
    ∃ b tr, convergeRun f (searchMeasure BenchmarkState.default + 1)
        BenchmarkState.default [] = some (b, tr)
      ∧ ∀ p e, (p, e) ∈ tr → (e = false → p ≤ b) ∧ (e = true → b ≤ p) := by
  refine convergeRun_spec f (searchMeasure BenchmarkState.default + 1)
    BenchmarkState.default [] ?_ (by omega) ?_
  · exact ⟨show MIN_ENTITY_COUNT ≤ MIN_ENTITY_COUNT by decide,
      show MIN_ENTITY_COUNT < INITIAL_ENTITY_COUNT by decide,
      show INITIAL_ENTITY_COUNT ≤ MAX_ENTITY_COUNT by decide,
      show MAX_ENTITY_COUNT ≤ MAX_ENTITY_COUNT by decide⟩
  · intro p e hpe
    exact absurd hpe (List.not_mem_nil _)

/-- C3 witness: the identity-like monotone median reading. -/
theorem convergence_engine_terminates_witness :
    (∀ a b : ℕ, a ≤ b → ((a : ℚ)) ≤ ((b : ℚ)))
    ∧ ∃ b tr, convergeRun (fun n => (n : ℚ))
        (searchMeasure BenchmarkState.default + 1)
        BenchmarkState.default [] = some (b, tr)
      ∧ ∀ p e, (p, e) ∈ tr → (e = false → p ≤ b) ∧ (e = true → b ≤ p) := by
  have hmono : ∀ a b : ℕ, a ≤ b → ((a : ℚ)) ≤ ((b : ℚ)) := by
    intro a b hab
    exact_mod_cast hab
  exact ⟨hmono, convergence_engine_terminates (fun n => (n : ℚ)) hmono⟩

end BevyBench
